import Mathlib

/-!
Verification development for the account-provisioning tool (`src/main.py`).

The program drives a headless browser through a signup form, verifies the
account via a disposable mailbox, persists the credentials, and optionally
uploads a file.  We shallowly embed the pieces of `main.py` the claims are
about: the `register` coroutine (lines 223-273), the `loop_registrations`
batch loop (lines 213-220), `archive_folder` (lines 148-157), `setup`
(lines 117-145), the `parse_account` helper of `convert_accounts`
(lines 165-177), and the `__main__` dispatch (lines 276-304).

Paths and strings are modelled as `List Char`.  External collaborator calls
(pyppeteer, the mailbox client, the uploader) are modelled as fallible steps
whose success is injected through a `World` record; a run is a trace of
observable events plus an outcome (normal return, `sys.exit`, or a raised
exception).
-/

namespace Mega

/-- File-system paths and Python strings, as lists of characters. -/
abbrev FPath := List Char

/-- The `Credentials` record produced by `generate_mail` (utilities/etc).
The fields used by `main.py` are the email alias, the mailbox password and
the account password. -/
structure Credentials where
  name : FPath
  email : FPath
  emailPassword : FPath
  password : FPath
deriving DecidableEq, Repr

/-- Modelled from the spec: `generate_mail` (utilities/web, not under src/)
produces a fresh identity each time it is called; freshness is modelled by
indexing the generator with an invocation counter and giving each invocation
a distinct alias. -/
def genCredentials (i : Nat) : Credentials :=
  { name := ['u'], email := List.replicate (i + 1) 'a',
    emailPassword := ['e'], password := ['p'] }

/-- The configuration record (`utilities/fs.Config`): the browser executable
path and the credential-record template. -/
structure Config where
  executablePath : FPath
  accountFormat : FPath
deriving DecidableEq

/-- Everything the program observes about the outside world in one run:
whether each external collaborator call succeeds, the file system (size of a
path, `none` when the path does not exist; directory test), and the inputs
`setup` consumes (the stored config, the interactive answer, existence of
the answered path, and the config produced by `write_default_config`). -/
structure World where
  launchOk : Bool
  contextOk : Bool
  typeNameOk : Bool
  typePasswordOk : Bool
  finishFormOk : Bool
  mailLoginOk : Bool
  getMailOk : Bool
  initialSetupOk : Bool
  fsize : FPath → Option Nat
  isDir : FPath → Bool
  configRead : Option Config
  defaultConfig : Config
  userInput : FPath
  pathExists : FPath → Bool

/-- The parsed command-line arguments consumed by the modelled code paths. -/
structure CliArgs where
  convert : Bool
  extract : Bool
  keepalive : Bool
  file : Option FPath
  public : Bool
  loop : Option Int

/-- Observable events of a run, in program order. -/
inductive Event where
  | launch
  | openPage
  | typeName
  | typePassword
  | finishForm
  | mailLogin
  | sleep (ms : Nat)
  | poll
  | initialSetup
  | closeBrowser
  | deleteDefault
  | saveCredentials (c : Credentials)
  | warnLargeFile
  | uploadFile (pub : Bool) (p : FPath)
  | printFileNotFound
  | clearTmp
  | generated (c : Credentials)
  | registerCall (c : Credentials)
  | archiveCreated (p : FPath)
  | convertRun
  | extractRun
  | keepaliveRun
deriving DecidableEq, Repr

/-- The exception kinds a run can raise.  `verificationTimeout` is the error
kind the spec's timing policy calls for; it is listed so that statements can
say the code never produces it. -/
inductive PyError where
  | launchFailed
  | contextFailed
  | typeNameFailed
  | typePasswordFailed
  | finishFormFailed
  | mailLoginFailed
  | getMailFailed
  | initialSetupFailed
  | fileNotFound
  | verificationTimeout
deriving DecidableEq, Repr

/-- How a run ends: `sys.exit(code)`, an uncaught exception, or a normal
return to the caller. -/
inductive Outcome where
  | exited (code : Nat)
  | raised (e : PyError)
  | returned
deriving DecidableEq, Repr

/-- The test `console_args.loop is None or console_args.loop <= 1`
(main.py line 272). -/
def loopLE1 : Option Int → Bool
  | none => true
  | some n => n ≤ 1

/-- The upload block of `register` (main.py lines 261-271).  Mirrors the
source exactly: when `console_args.file is not None`, `os.path.getsize` is
called first (raising `FileNotFoundError` when the path is missing — modelled
by `fsize p = none`); only then is `os.path.exists(...) and 0 < file_size <
2e10` tested, with a warning printed when `file_size >= 5e9` before
`upload_file`, and `File not found.` printed otherwise.  `fsize p = some s`
makes `os.path.exists` true. -/
def uploadPhase (file : Option FPath) (fsize : FPath → Option Nat) (pub : Bool) :
    List Event × Option PyError :=
  match file with
  | none => ([], none)
  | some p =>
    match fsize p with
    | none => ([], some .fileNotFound)
    | some s =>
      if 0 < s ∧ s < 20000000000 then
        if 5000000000 ≤ s then ([.warnLargeFile, .uploadFile pub p], none)
        else ([.uploadFile pub p], none)
      else ([.printFileNotFound], none)

/-- The events of a `register` run that reaches `save_credentials`
(main.py lines 225-259), in source order. -/
def successPre (c : Credentials) : List Event :=
  [.launch, .openPage, .typeName, .typePassword, .finishForm, .mailLogin,
    .sleep 1500, .poll, .initialSetup, .sleep 500, .closeBrowser,
    .deleteDefault, .saveCredentials c]

/-- The `register` coroutine (main.py lines 223-273).  Steps run in source
order: browser launch, incognito context + new page, `type_name`,
`type_password`, `finish_form`, `mail_login`, `asyncio.sleep(1.5)`, one
`get_mail` poll, `initial_setup`, `asyncio.sleep(0.5)`, `browser.close()`,
`delete_default`, `save_credentials`, the upload block, and finally
`sys.exit(0)` when `console_args.loop is None or <= 1`.  Each attempted call
is recorded as an event; a failing call raises, and there is no
try/finally, so later events (in particular `closeBrowser`) do not occur. -/
def register (w : World) (file : Option FPath) (loop : Option Int) (pub : Bool)
    (c : Credentials) : List Event × Outcome :=
  if w.launchOk = false then ([.launch], .raised .launchFailed)
  else if w.contextOk = false then ([.launch, .openPage], .raised .contextFailed)
  else if w.typeNameOk = false then
    ([.launch, .openPage, .typeName], .raised .typeNameFailed)
  else if w.typePasswordOk = false then
    ([.launch, .openPage, .typeName, .typePassword], .raised .typePasswordFailed)
  else if w.finishFormOk = false then
    ([.launch, .openPage, .typeName, .typePassword, .finishForm], .raised .finishFormFailed)
  else if w.mailLoginOk = false then
    ([.launch, .openPage, .typeName, .typePassword, .finishForm, .mailLogin],
      .raised .mailLoginFailed)
  else if w.getMailOk = false then
    ([.launch, .openPage, .typeName, .typePassword, .finishForm, .mailLogin,
      .sleep 1500, .poll], .raised .getMailFailed)
  else if w.initialSetupOk = false then
    ([.launch, .openPage, .typeName, .typePassword, .finishForm, .mailLogin,
      .sleep 1500, .poll, .initialSetup], .raised .initialSetupFailed)
  else
    match uploadPhase file w.fsize pub with
    | (u, some e) => (successPre c ++ u, .raised e)
    | (u, none) => (successPre c ++ u, if loopLE1 loop then .exited 0 else .returned)

/-- All browser-phase steps of `register` succeed, i.e. control reaches the
`browser.close()` call on line 250. -/
def reachesClose (w : World) : Bool :=
  w.launchOk && w.contextOk && w.typeNameOk && w.typePasswordOk && w.finishFormOk &&
    w.mailLoginOk && w.getMailOk && w.initialSetupOk

/-- All steps up to and including `mail_login` succeed, i.e. control reaches
the sleep-then-poll on lines 245-246. -/
def reachesPoll (w : World) : Bool :=
  w.launchOk && w.contextOk && w.typeNameOk && w.typePasswordOk && w.finishFormOk &&
    w.mailLoginOk

def isClose : Event → Bool
  | .closeBrowser => true
  | _ => false

def isPoll : Event → Bool
  | .poll => true
  | _ => false

def isClear : Event → Bool
  | .clearTmp => true
  | _ => false

def isRegisterCall : Event → Bool
  | .registerCall _ => true
  | _ => false

def isSave : Event → Bool
  | .saveCredentials _ => true
  | _ => false

def isUpload : Event → Bool
  | .uploadFile _ _ => true
  | _ => false

def isWarn : Event → Bool
  | .warnLargeFile => true
  | _ => false

def isFNF : Event → Bool
  | .printFileNotFound => true
  | _ => false

def isArchive : Event → Bool
  | .archiveCreated _ => true
  | _ => false

/-- One iteration of the batch loop (main.py lines 215-220): `clear_tmp()`,
`generate_mail()`, then the `register` call.  The `registerCall` event marks
the invocation of the provisioning operation. -/
def iterRun (w : World) (file : Option FPath) (pub : Bool) (loop : Option Int)
    (i : Nat) : List Event × Outcome :=
  let c := genCredentials i
  let r := register w file loop pub c
  ([.clearTmp, .generated c, .registerCall c] ++ r.1, r.2)

/-- The `loop_registrations` batch loop (main.py lines 213-220): `for _ in
range(loop_count)`, run the iteration body.  An exception or `sys.exit`
raised by an iteration propagates and aborts the remaining iterations. -/
def loop_registrations (w : World) (file : Option FPath) (pub : Bool)
    (loop : Option Int) : Nat → List Event × Outcome
  | 0 => ([], .returned)
  | Nat.succ n =>
    match loop_registrations w file pub loop n with
    | (t, .returned) =>
      let r := iterRun w file pub loop n
      (t ++ r.1, r.2)
    | (t, o) => (t, o)

/-- The executable path `setup` (main.py lines 117-127) holds right before
the `if not executable_path:` test: empty when `read_config()` returned
`None` (the default-config branch never assigns it), otherwise the stored
`config.executablePath`. -/
def setupExecPath (w : World) : FPath :=
  match w.configRead with
  | none => []
  | some cfg => cfg.executablePath

/-- The config value `setup` carries forward: the freshly written default
config when `read_config()` returned `None`, otherwise the stored one. -/
def setupCfg (w : World) : Config :=
  match w.configRead with
  | none => w.defaultConfig
  | some cfg => cfg

/-- The `setup` function (main.py lines 117-145).  When the executable path
is empty it prompts for one; a nonexistent answer is fatal
(`sys.exit(1)`, modelled as `Except.error 1`). -/
def setup (w : World) : Except Nat (FPath × Config) :=
  if setupExecPath w = [] then
    if w.pathExists w.userInput then Except.ok (w.userInput, setupCfg w)
    else Except.error 1
  else Except.ok (setupExecPath w, setupCfg w)

/-- Python's `str.rstrip("/\\")`: drop trailing slash and backslash
characters. -/
def stripSeps (p : FPath) : FPath :=
  (p.reverse.dropWhile (fun c => c == '/' || c == '\\')).reverse

/-- The characters of the `.zip` suffix. -/
def zipExt : FPath := ['.', 'z', 'i', 'p']

/-- The `archive_folder` function (main.py lines 148-157).  For a directory
it returns `folder_path.rstrip("/\\") + ".zip"`, while
`shutil.make_archive(folder_path, "zip", folder_path)` creates the archive
at `folder_path + ".zip"` (the stdlib appends the extension to the base
name as given).  The result pairs the returned path with the path of the
archive actually created (`none` when no archive is made). -/
def archive_folder (isDir : FPath → Bool) (p : FPath) : FPath × Option FPath :=
  if isDir p then (stripSeps p ++ zipExt, some (p ++ zipExt))
  else (p, none)

/-- The upload-path resolution of the single-shot branch of `__main__`
(main.py lines 299-302): under the truthiness test `if console_args.file:`,
a directory-valued upload path is replaced by the `archive_folder` result.
The pair holds the path `register` will use and the path of the archive
actually created, if any. -/
def singleShotFile (a : CliArgs) (w : World) : Option FPath × Option FPath :=
  match a.file with
  | none => (none, none)
  | some p =>
    if !p.isEmpty && w.isDir p then
      (some (archive_folder w.isDir p).1, (archive_folder w.isDir p).2)
    else (some p, none)

/-- The single-shot continuation of `__main__` (main.py lines 295-304):
`clear_tmp()`, `generate_mail()`, the upload-path resolution above (with an
event recording the archive created, if any), then `register` with the
resolved path. -/
def singleShot (a : CliArgs) (w : World) : List Event × Outcome :=
  let c := genCredentials 0
  let fa := singleShotFile a w
  let archEvents : List Event :=
    match fa.2 with
    | some q => [.archiveCreated q]
    | none => []
  let r := register w fa.1 a.loop a.public c
  ([.clearTmp, .generated c] ++ archEvents ++ [.registerCall c] ++ r.1, r.2)

/-- The `__main__` dispatch (main.py lines 276-304): the convert branch
exits 0 before `setup`; `setup` failure exits the process; an empty
executable path after `setup` exits 1; then extract / keepalive /
`loop > 1` batch / single-shot, in source order. -/
def mainRun (a : CliArgs) (w : World) : List Event × Outcome :=
  if a.convert then ([.convertRun], .exited 0)
  else
    match setup w with
    | .error code => ([], .exited code)
    | .ok (ep, _cfg) =>
      if ep = [] then ([], .exited 1)
      else if a.extract then ([.extractRun], .returned)
      else if a.keepalive then ([.keepaliveRun], .returned)
      else
        match a.loop with
        | some n => if 1 < n then loop_registrations w a.file a.public (some n) n.toNat
                    else singleShot a w
        | none => singleShot a w

/-- The decision vocabulary of the spec's `UploadGate.decide`. -/
inductive GateDecision where
  | REJECT
  | ATTEMPT
  | ATTEMPT_WITH_WARNING
deriving DecidableEq, Repr

/-- Modelled from the spec: `UploadGate.decide` — `REJECT` if the path does
not exist or `s <= 0` or `s >= 2e10`; `ATTEMPT_WITH_WARNING` if
`5e9 <= s < 2e10`; otherwise `ATTEMPT`.  Sizes are naturals, so `s <= 0`
is `s = 0`. -/
def gateDecide (pathPresent : Bool) (s : Nat) : GateDecision :=
  if pathPresent = false ∨ s = 0 ∨ 20000000000 ≤ s then .REJECT
  else if 5000000000 ≤ s then .ATTEMPT_WITH_WARNING
  else .ATTEMPT

/-- Classify what the upload block of `register` did: `none` when it raised,
otherwise the spec-level decision its events exhibit (an upload attempt,
an upload attempt after a warning, or the skip printed as
`File not found.`). -/
def classifyUpload (r : List Event × Option PyError) : Option GateDecision :=
  match r.2 with
  | some _ => none
  | none =>
    if r.1.any isUpload then
      if r.1.any isWarn then some .ATTEMPT_WITH_WARNING else some .ATTEMPT
    else some .REJECT

/-- Every `uploadFile` event in the trace carries exactly the given upload
path argument. -/
def uploadsMatch (f : Option FPath) (t : List Event) : Bool :=
  t.all fun e =>
    match e with
    | .uploadFile _ p => decide (some p = f)
    | _ => true

/-- The credentials passed to each `register` invocation, in call order. -/
def calledCreds (t : List Event) : List Credentials :=
  t.filterMap fun e =>
    match e with
    | .registerCall c => some c
    | _ => none

/-- The batch-level skeleton of a trace: just the working-directory resets
and the `register` invocations, in order. -/
def batchSkeleton (t : List Event) : List Event :=
  t.filter fun e => isClear e || isRegisterCall e

/-- Does `pat` occur at the very start of `text`? -/
def leadsWith : List Char → List Char → Bool
  | [], _ => true
  | _ :: _, [] => false
  | p :: ps, c :: cs => p == c && leadsWith ps cs

/-- Does `pat` occur anywhere inside `text` (as a contiguous run)? -/
def occursIn (pat : List Char) : List Char → Bool
  | [] => leadsWith pat []
  | c :: cs => leadsWith pat (c :: cs) || occursIn pat cs

/-- One position of `re.search(pat + "(.+)", text)`: if the literal `pat`
starts here, the group captures the maximal nonempty run of non-newline
characters that follows (`.` does not match a newline and `+` needs at
least one character); an empty run means the position does not match. -/
def tryAt (pat text : List Char) : Option (List Char) :=
  if leadsWith pat text then
    let cap := (text.drop pat.length).takeWhile (fun c => !(c == '\n'))
    if cap.isEmpty then none else some cap
  else none

/-- The whole `re.search(pat + "(.+)", text)`: scan left to right and return
the first position's capture. -/
def reSearch (pat : List Char) : List Char → Option (List Char)
  | [] => tryAt pat []
  | c :: rest =>
    match tryAt pat (c :: rest) with
    | some cap => some cap
    | none => reSearch pat rest

/-- The literal `Email: ` of main.py line 166. -/
def emailPat : List Char := ['E', 'm', 'a', 'i', 'l', ':', ' ']

/-- The literal `Email Password: ` of main.py line 167. -/
def emailPassPat : List Char :=
  ['E', 'm', 'a', 'i', 'l', ' ', 'P', 'a', 's', 's', 'w', 'o', 'r', 'd', ':', ' ']

/-- The literal `Mega Password: ` of main.py line 168. -/
def megaPassPat : List Char :=
  ['M', 'e', 'g', 'a', ' ', 'P', 'a', 's', 's', 'w', 'o', 'r', 'd', ':', ' ']

/-- The dictionary `parse_account` builds (main.py lines 173-177). -/
structure AccountJson where
  email : List Char
  emailPassword : List Char
  password : List Char
deriving DecidableEq, Repr

/-- The `parse_account` helper of `convert_accounts` (main.py lines
165-177): three `re.search` calls; `None` unless all three match, otherwise
the dictionary of the three captured groups. -/
def parse_account (t : List Char) : Option AccountJson :=
  match reSearch emailPat t, reSearch emailPassPat t, reSearch megaPassPat t with
  | some e, some ep, some mp => some { email := e, emailPassword := ep, password := mp }
  | _, _, _ => none

/-- Modelled from the spec: `save_credentials` (utilities/fs, not under
src/) formats the credentials into the configured template, whose
recognized placeholders are the email, the email password and the account
password; the known template labels them with the lines `parse_account`
looks for.  The persisted record is therefore
`Email: <email>\nEmail Password: <emailPassword>\nMega Password:
<password>`. -/
def formatRecord (c : Credentials) : List Char :=
  emailPat ++ c.email ++ '\n' :: (emailPassPat ++ c.emailPassword) ++
    '\n' :: (megaPassPat ++ c.password)

/-- A world in which every external collaborator call succeeds, the stored
config carries a usable executable path, and the file system is empty (every
size query fails). -/
def allOkWorld : World :=
  { launchOk := true, contextOk := true, typeNameOk := true, typePasswordOk := true,
    finishFormOk := true, mailLoginOk := true, getMailOk := true, initialSetupOk := true,
    fsize := fun _ => none, isDir := fun _ => false,
    configRead := some { executablePath := ['c'], accountFormat := [] },
    defaultConfig := { executablePath := [], accountFormat := [] },
    userInput := [], pathExists := fun _ => false }

/-- Like `allOkWorld`, but `finish_form` (the signup submission) fails. -/
def finishFailWorld : World := { allOkWorld with finishFormOk := false }

/-- Like `allOkWorld`, but the single mailbox poll finds nothing and
`get_mail` fails. -/
def noMailWorld : World := { allOkWorld with getMailOk := false }

/-- Like `allOkWorld`, but every path exists with size exactly `2e10`
bytes (at the out-of-bounds threshold). -/
def bigFileWorld : World := { allOkWorld with fsize := fun _ => some 20000000000 }

/-- Like `allOkWorld`, but every path exists with a small size of 100
bytes. -/
def smallFileWorld : World := { allOkWorld with fsize := fun _ => some 100 }

/-- The characters of the directory name `data`. -/
def dirData : FPath := ['d', 'a', 't', 'a']

/-- The characters of `data/` (the same directory named with a trailing
separator, as a user may type it on the command line). -/
def dirDataSlash : FPath := dirData ++ ['/']

/-- A directory test under which both spellings of `data` denote a
directory. -/
def isDirDemo : FPath → Bool := fun q => q == dirData || q == dirDataSlash

/-- Command-line arguments with every optional feature off. -/
def plainArgs : CliArgs :=
  { convert := false, extract := false, keepalive := false, file := none,
    public := false, loop := none }

/-- Like `allOkWorld`, but `read_config()` finds no stored config and the
interactively entered executable path does not exist. -/
def noConfigWorld : World := { allOkWorld with configRead := none }

/-- A batch invocation: three iterations, uploading the directory `data`. -/
def dirArgs : CliArgs :=
  { convert := false, extract := false, keepalive := false, file := some dirData,
    public := false, loop := some 3 }

/-- A single-shot invocation spelled with an explicit loop count of 1. -/
def singleArgs : CliArgs := { plainArgs with loop := some 1 }

/-- Like `smallFileWorld`, but every path also passes the directory test. -/
def loopWorld : World := { smallFileWorld with isDir := fun _ => true }

/-- A concrete credentials record used to witness the round-trip. -/
def demoCreds : Credentials :=
  { name := ['u'], email := ['a', '@', 'b', '.', 'c'],
    emailPassword := ['x', '1'], password := ['y', '2'] }

/-- A single-shot invocation uploading the directory spelled `data/`. -/
def slashArgs : CliArgs := { plainArgs with file := some dirDataSlash }

/-- Like `allOkWorld`, but `data` and `data/` pass the directory test. -/
def slashWorld : World := { allOkWorld with isDir := isDirDemo }

/-! ### Support lemmas -/

theorem uploadPhase_events (f : Option FPath) (fs : FPath → Option Nat) (pub : Bool) :
    ∀ e ∈ (uploadPhase f fs pub).1,
      isWarn e = true ∨ isUpload e = true ∨ isFNF e = true := by
  unfold uploadPhase
  cases f with
  | none => simp
  | some p =>
    rcases hfp : fs p with _ | s <;> simp only [hfp]
    · simp
    · split_ifs <;> simp [isWarn, isUpload, isFNF]

theorem uploadPhase_err (f : Option FPath) (fs : FPath → Option Nat) (pub : Bool)
    (e : PyError) (h : (uploadPhase f fs pub).2 = some e) : e = .fileNotFound := by
  unfold uploadPhase at h
  cases f with
  | none => simp at h
  | some p =>
    rcases hfp : fs p with _ | s <;> simp only [hfp] at h
    · simp only [Option.some.injEq] at h
      exact h.symm
    · split_ifs at h

theorem uploadPhase_err_none (p : FPath) (fs : FPath → Option Nat) (pub : Bool)
    (h : (fs p).isSome = true) : (uploadPhase (some p) fs pub).2 = none := by
  unfold uploadPhase
  rcases hfp : fs p with _ | s <;> simp only [hfp]
  · rw [hfp] at h
    simp at h
  · split_ifs <;> rfl

theorem successPre_events (c : Credentials) :
    ∀ e ∈ successPre c, isClear e = false ∧ isRegisterCall e = false ∧ isArchive e = false := by
  intro e he
  simp only [successPre, List.mem_cons, List.not_mem_nil, or_false] at he
  rcases he with rfl|rfl|rfl|rfl|rfl|rfl|rfl|rfl|rfl|rfl|rfl|rfl|rfl <;> exact ⟨rfl, rfl, rfl⟩

theorem register_events (w : World) (file : Option FPath) (loop : Option Int)
    (pub : Bool) (c : Credentials) :
    ∀ e ∈ (register w file loop pub c).1,
      isClear e = false ∧ isRegisterCall e = false ∧ isArchive e = false := by
  rcases hu : uploadPhase file w.fsize pub with ⟨u, eo⟩
  have hul : ∀ e ∈ u, isClear e = false ∧ isRegisterCall e = false ∧ isArchive e = false := by
    intro e he
    have := uploadPhase_events file w.fsize pub e (by rw [hu]; exact he)
    rcases this with h | h | h <;> cases e <;>
      simp_all [isWarn, isUpload, isFNF, isClear, isRegisterCall, isArchive]
  unfold register
  rw [hu]
  split_ifs <;>
    first
    | (intro e he
       fin_cases he <;> exact ⟨rfl, rfl, rfl⟩)
    | (cases eo <;>
        (intro e he
         rcases List.mem_append.mp he with h | h
         · exact successPre_events c e h
         · exact hul e h))

theorem countP_eq_zero_of_all (p : Event → Bool) (l : List Event)
    (h : ∀ e ∈ l, p e = false) : l.countP p = 0 := by
  rw [List.countP_eq_zero]
  intro a ha
  simp [h a ha]

theorem uploadPhase_countP_zero (q : Event → Bool) (hq1 : q .warnLargeFile = false)
    (hq2 : ∀ pb r, q (.uploadFile pb r) = false) (hq3 : q .printFileNotFound = false)
    (f : Option FPath) (fs : FPath → Option Nat) (pub : Bool) :
    (uploadPhase f fs pub).1.countP q = 0 := by
  apply countP_eq_zero_of_all
  intro e he
  rcases uploadPhase_events f fs pub e he with h | h | h <;> cases e <;>
    first
    | exact hq1
    | exact hq2 _ _
    | exact hq3
    | simp_all [isWarn, isUpload, isFNF]

theorem register_countP_clear (w : World) (file : Option FPath) (loop : Option Int)
    (pub : Bool) (c : Credentials) :
    (register w file loop pub c).1.countP isClear = 0 :=
  countP_eq_zero_of_all _ _ (fun e he => (register_events w file loop pub c e he).1)

theorem register_countP_call (w : World) (file : Option FPath) (loop : Option Int)
    (pub : Bool) (c : Credentials) :
    (register w file loop pub c).1.countP isRegisterCall = 0 :=
  countP_eq_zero_of_all _ _ (fun e he => (register_events w file loop pub c e he).2.1)

theorem register_countP_archive (w : World) (file : Option FPath) (loop : Option Int)
    (pub : Bool) (c : Credentials) :
    (register w file loop pub c).1.countP isArchive = 0 :=
  countP_eq_zero_of_all _ _ (fun e he => (register_events w file loop pub c e he).2.2)

theorem register_calledCreds (w : World) (file : Option FPath) (loop : Option Int)
    (pub : Bool) (c : Credentials) :
    calledCreds (register w file loop pub c).1 = [] := by
  rw [calledCreds, List.filterMap_eq_nil_iff]
  intro e he
  have := (register_events w file loop pub c e he).2.1
  cases e <;> simp_all [isRegisterCall]

theorem register_batchSkeleton (w : World) (file : Option FPath) (loop : Option Int)
    (pub : Bool) (c : Credentials) :
    batchSkeleton (register w file loop pub c).1 = [] := by
  rw [batchSkeleton, List.filter_eq_nil_iff]
  intro e he
  have := register_events w file loop pub c e he
  simp [this.1, this.2.1]

theorem successPre_close (c : Credentials) : (successPre c).countP isClose = 1 := rfl

theorem successPre_poll (c : Credentials) : (successPre c).countP isPoll = 1 := rfl

theorem register_analysis (w : World) (file : Option FPath)
    (loop : Option Int) (pub : Bool) (c : Credentials) :
    (register w file loop pub c).1.countP isClose = (if reachesClose w then 1 else 0) ∧
    (register w file loop pub c).1.countP isPoll = (if reachesPoll w then 1 else 0) ∧
    (register w file loop pub c).2 ≠ .raised .verificationTimeout := by
  rcases hu : uploadPhase file w.fsize pub with ⟨u, eo⟩
  have hu0c : u.countP isClose = 0 := by
    have := uploadPhase_countP_zero isClose rfl (fun _ _ => rfl) rfl file w.fsize pub
    rw [hu] at this
    exact this
  have hu0p : u.countP isPoll = 0 := by
    have := uploadPhase_countP_zero isPoll rfl (fun _ _ => rfl) rfl file w.fsize pub
    rw [hu] at this
    exact this
  have herr : ∀ e, eo = some e → e = PyError.fileNotFound := by
    intro e he
    exact uploadPhase_err file w.fsize pub e (by rw [hu, he])
  by_cases h1 : w.launchOk = true
  · by_cases h2 : w.contextOk = true
    · by_cases h3 : w.typeNameOk = true
      · by_cases h4 : w.typePasswordOk = true
        · by_cases h5 : w.finishFormOk = true
          · by_cases h6 : w.mailLoginOk = true
            · by_cases h7 : w.getMailOk = true
              · by_cases h8 : w.initialSetupOk = true
                · have hec : eo = none ∨ eo = some PyError.fileNotFound := by
                    rcases eo with _ | e
                    · exact Or.inl rfl
                    · exact Or.inr (by rw [herr e rfl])
                  rcases hec with rfl | rfl <;>
                    (simp [register, reachesClose, reachesPoll, h1, h2, h3, h4, h5, h6,
                       h7, h8, hu, List.countP_append, successPre_close, successPre_poll,
                       hu0c, hu0p]
                     try (split_ifs <;> simp))
                · simp [register, reachesClose, reachesPoll, h1, h2, h3, h4, h5, h6, h7,
                    h8, List.countP_cons, isClose, isPoll]
              · simp [register, reachesClose, reachesPoll, h1, h2, h3, h4, h5, h6, h7,
                  List.countP_cons, isClose, isPoll]
            · simp [register, reachesClose, reachesPoll, h1, h2, h3, h4, h5, h6,
                List.countP_cons, isClose, isPoll]
          · simp [register, reachesClose, reachesPoll, h1, h2, h3, h4, h5,
              List.countP_cons, isClose, isPoll]
        · simp [register, reachesClose, reachesPoll, h1, h2, h3, h4,
            List.countP_cons, isClose, isPoll]
      · simp [register, reachesClose, reachesPoll, h1, h2, h3,
          List.countP_cons, isClose, isPoll]
    · simp [register, reachesClose, reachesPoll, h1, h2,
        List.countP_cons, isClose, isPoll]
  · simp [register, reachesClose, reachesPoll, h1,
      List.countP_cons, isClose, isPoll]

theorem batchSkeleton_append (a b : List Event) :
    batchSkeleton (a ++ b) = batchSkeleton a ++ batchSkeleton b :=
  List.filter_append a b

theorem calledCreds_append (a b : List Event) :
    calledCreds (a ++ b) = calledCreds a ++ calledCreds b :=
  List.filterMap_append a b _

theorem batchSkeleton_block (c : Credentials) :
    batchSkeleton [.clearTmp, .generated c, .registerCall c] =
      [.clearTmp, .registerCall c] := rfl

theorem calledCreds_block (c : Credentials) :
    calledCreds [.clearTmp, .generated c, .registerCall c] = [c] := rfl

theorem register_nominal (w : World) (file : Option FPath) (pub : Bool)
    (L : Option Int) (c : Credentials) (hw : reachesClose w = true)
    (hup : (uploadPhase file w.fsize pub).2 = none) (hL : loopLE1 L = false) :
    (register w file L pub c).2 = .returned := by
  rw [reachesClose] at hw
  simp only [Bool.and_eq_true] at hw
  obtain ⟨⟨⟨⟨⟨⟨⟨h1, h2⟩, h3⟩, h4⟩, h5⟩, h6⟩, h7⟩, h8⟩ := hw
  rcases hu : uploadPhase file w.fsize pub with ⟨u, eo⟩
  rw [hu] at hup
  simp only at hup
  subst hup
  simp [register, h1, h2, h3, h4, h5, h6, h7, h8, hu, hL]

theorem loop_nominal (w : World) (file : Option FPath) (pub : Bool) (L : Option Int)
    (hw : reachesClose w = true) (hup : (uploadPhase file w.fsize pub).2 = none)
    (hL : loopLE1 L = false) :
    ∀ n : Nat,
      (loop_registrations w file pub L n).2 = .returned ∧
      batchSkeleton (loop_registrations w file pub L n).1 =
        (List.range n).flatMap
          (fun i => [Event.clearTmp, Event.registerCall (genCredentials i)]) ∧
      calledCreds (loop_registrations w file pub L n).1 =
        (List.range n).map genCredentials ∧
      (loop_registrations w file pub L n).1.countP isClear = n ∧
      (loop_registrations w file pub L n).1.countP isRegisterCall = n := by
  intro n
  induction n with
  | zero => exact ⟨rfl, rfl, rfl, rfl, rfl⟩
  | succ n ih =>
    obtain ⟨ho, hs, hc, h1, h2⟩ := ih
    rcases hrec : loop_registrations w file pub L n with ⟨t, o⟩
    rw [hrec] at ho hs hc h1 h2
    simp only at ho hs hc h1 h2
    subst ho
    have hreg := register_nominal w file pub L (genCredentials n) hw hup hL
    rcases hr : register w file L pub (genCredentials n) with ⟨rt, ro⟩
    rw [hr] at hreg
    simp only at hreg
    subst hreg
    have hrt : batchSkeleton rt = [] := by
      have := register_batchSkeleton w file L pub (genCredentials n)
      rw [hr] at this
      exact this
    have hrc : calledCreds rt = [] := by
      have := register_calledCreds w file L pub (genCredentials n)
      rw [hr] at this
      exact this
    have hr1 : rt.countP isClear = 0 := by
      have := register_countP_clear w file L pub (genCredentials n)
      rw [hr] at this
      exact this
    have hr2 : rt.countP isRegisterCall = 0 := by
      have := register_countP_call w file L pub (genCredentials n)
      rw [hr] at this
      exact this
    have hstep : loop_registrations w file pub L (n + 1) =
        (t ++ ([.clearTmp, .generated (genCredentials n),
            .registerCall (genCredentials n)] ++ rt), Outcome.returned) := by
      unfold loop_registrations
      rw [hrec]
      simp [iterRun, hr]
    rw [hstep]
    simp only [List.range_succ, List.flatMap_append, List.map_append,
      batchSkeleton_append, calledCreds_append, List.countP_append,
      batchSkeleton_block, calledCreds_block, hrt, hrc, hr1, hr2, hs, hc, h1, h2]
    simp [isClear, isRegisterCall, List.countP_cons]

theorem genCredentials_injective : Function.Injective genCredentials := by
  intro i j h
  have he := congrArg Credentials.email h
  have hl := congrArg List.length he
  simp [genCredentials] at hl
  omega

theorem setup_fail (w : World) (h1 : setupExecPath w = [])
    (h2 : w.pathExists w.userInput = false) : setup w = .error 1 := by
  unfold setup
  rw [if_pos h1, if_neg (by simp [h2])]

theorem setup_ok (w : World) (h : setupExecPath w ≠ []) :
    setup w = .ok (setupExecPath w, setupCfg w) := by
  unfold setup
  rw [if_neg h]

theorem register_success (w : World) (file : Option FPath) (pub : Bool)
    (L : Option Int) (c : Credentials) (hw : reachesClose w = true)
    (hup : (uploadPhase file w.fsize pub).2 = none) :
    (register w file L pub c).2 = if loopLE1 L then .exited 0 else .returned := by
  rw [reachesClose] at hw
  simp only [Bool.and_eq_true] at hw
  obtain ⟨⟨⟨⟨⟨⟨⟨h1, h2⟩, h3⟩, h4⟩, h5⟩, h6⟩, h7⟩, h8⟩ := hw
  rcases hu : uploadPhase file w.fsize pub with ⟨u, eo⟩
  rw [hu] at hup
  simp only at hup
  subst hup
  simp [register, h1, h2, h3, h4, h5, h6, h7, h8, hu]

theorem uploadPhase_total_none (f : Option FPath) (fs : FPath → Option Nat)
    (pub : Bool) (hfs : ∀ p, (fs p).isSome = true) :
    (uploadPhase f fs pub).2 = none := by
  rcases f with _ | p
  · rfl
  · exact uploadPhase_err_none p fs pub (hfs p)

theorem uploadPhase_payload (f : Option FPath) (fs : FPath → Option Nat) (pub : Bool) :
    ∀ e ∈ (uploadPhase f fs pub).1, ∀ pb q, e = .uploadFile pb q → f = some q := by
  unfold uploadPhase
  rcases f with _ | p
  · simp
  · rcases hfp : fs p with _ | s <;> simp only [hfp]
    · simp
    · split_ifs <;> (intro e he pb q heq; fin_cases he <;> simp_all)

theorem register_payload (w : World) (file : Option FPath) (L : Option Int)
    (pub : Bool) (c : Credentials) :
    ∀ e ∈ (register w file L pub c).1, ∀ pb q, e = .uploadFile pb q → file = some q := by
  rcases hu : uploadPhase file w.fsize pub with ⟨u, eo⟩
  have hul : ∀ e ∈ u, ∀ pb q, e = .uploadFile pb q → file = some q := by
    intro e he
    exact uploadPhase_payload file w.fsize pub e (by rw [hu]; exact he)
  unfold register
  rw [hu]
  split_ifs <;>
    first
    | (intro e he
       fin_cases he <;> (intro pb q heq; simp at heq))
    | (cases eo <;>
        (intro e he
         rcases List.mem_append.mp he with h | h
         · simp only [successPre, List.mem_cons, List.not_mem_nil, or_false] at h
           rcases h with rfl|rfl|rfl|rfl|rfl|rfl|rfl|rfl|rfl|rfl|rfl|rfl|rfl <;>
             (intro pb q heq; simp at heq)
         · exact hul e h))

theorem uploadsMatch_of_payload (f : Option FPath) (t : List Event)
    (h : ∀ e ∈ t, ∀ pb q, e = .uploadFile pb q → f = some q) :
    uploadsMatch f t = true := by
  rw [uploadsMatch, List.all_eq_true]
  intro e he
  have hc := h e he
  clear h
  cases e <;> simp_all

theorem register_uploadsMatch (w : World) (file : Option FPath) (L : Option Int)
    (pub : Bool) (c : Credentials) :
    uploadsMatch file (register w file L pub c).1 = true :=
  uploadsMatch_of_payload _ _ (register_payload w file L pub c)

theorem loop_countP_archive (w : World) (file : Option FPath) (pub : Bool)
    (L : Option Int) : ∀ n, (loop_registrations w file pub L n).1.countP isArchive = 0 := by
  intro n
  induction n with
  | zero => rfl
  | succ n ih =>
    rcases hrec : loop_registrations w file pub L n with ⟨t, o⟩
    rw [hrec] at ih
    simp only at ih
    rcases hr : register w file L pub (genCredentials n) with ⟨rt, ro⟩
    have h0 : rt.countP isArchive = 0 := by
      have := register_countP_archive w file L pub (genCredentials n)
      rw [hr] at this
      exact this
    unfold loop_registrations
    rw [hrec]
    cases o <;>
      simp [iterRun, hr, List.countP_append, List.countP_cons, isArchive, ih, h0]

theorem loop_uploadsMatch (w : World) (file : Option FPath) (pub : Bool)
    (L : Option Int) : ∀ n, uploadsMatch file (loop_registrations w file pub L n).1 = true := by
  intro n
  induction n with
  | zero => rfl
  | succ n ih =>
    rcases hrec : loop_registrations w file pub L n with ⟨t, o⟩
    rw [hrec] at ih
    simp only at ih
    rcases hr : register w file L pub (genCredentials n) with ⟨rt, ro⟩
    have hm : uploadsMatch file rt = true := by
      have := register_uploadsMatch w file L pub (genCredentials n)
      rw [hr] at this
      exact this
    unfold loop_registrations
    rw [hrec]
    cases o <;>
      simp_all [iterRun, hr, uploadsMatch, List.all_append, List.all_cons]

theorem singleShot_calls (a : CliArgs) (w : World) :
    (singleShot a w).1.countP isRegisterCall = 1 := by
  unfold singleShot
  rcases hr : register w (singleShotFile a w).1 a.loop a.public (genCredentials 0)
    with ⟨rt, ro⟩
  have h0 : rt.countP isRegisterCall = 0 := by
    have := register_countP_call w (singleShotFile a w).1 a.loop a.public (genCredentials 0)
    rw [hr] at this
    exact this
  rcases hq : (singleShotFile a w).2 with _ | q <;>
    simp [hr, hq, List.countP_append, List.countP_cons, isRegisterCall, h0]

theorem mainRun_loop (a : CliArgs) (w : World) (n : Int) (hc : a.convert = false)
    (he : a.extract = false) (hk : a.keepalive = false) (hl : a.loop = some n)
    (hn : 1 < n) (hs : setupExecPath w ≠ []) :
    mainRun a w = loop_registrations w a.file a.public (some n) n.toNat := by
  simp only [mainRun, hc, Bool.false_eq_true, if_false, setup_ok w hs, he, hk, hl,
    if_neg hs, if_pos hn]

theorem mainRun_single (a : CliArgs) (w : World) (hc : a.convert = false)
    (he : a.extract = false) (hk : a.keepalive = false)
    (hl : a.loop = none ∨ a.loop = some 1) (hs : setupExecPath w ≠ []) :
    mainRun a w = singleShot a w := by
  rcases hl with hl | hl <;>
    simp only [mainRun, hc, Bool.false_eq_true, if_false, setup_ok w hs, he, hk, hl,
      if_neg hs]
  simp

theorem leadsWith_append (p s : List Char) : leadsWith p (p ++ s) = true := by
  induction p with
  | nil => rfl
  | cons a as ih => simp [leadsWith, ih]

theorem leadsWith_iff (pat : List Char) : ∀ text : List Char,
    leadsWith pat text = true ↔ ∃ u, text = pat ++ u := by
  induction pat with
  | nil =>
    intro text
    simp [leadsWith]
  | cons p ps ih =>
    intro text
    cases text with
    | nil =>
      constructor
      · intro h
        exact absurd h (by simp [leadsWith])
      · rintro ⟨u, hu⟩
        exact absurd hu (by simp)
    | cons c cs =>
      constructor
      · intro h
        have h' : (p == c) = true ∧ leadsWith ps cs = true := by
          simpa [leadsWith, Bool.and_eq_true] using h
        obtain ⟨u, hu⟩ := (ih cs).mp h'.2
        refine ⟨u, ?_⟩
        have hpc : p = c := by simpa [beq_iff_eq] using h'.1
        rw [List.cons_append, hu, hpc]
      · rintro ⟨u, hu⟩
        rw [List.cons_append] at hu
        injection hu with h1 h2
        have h2' : leadsWith ps cs = true := (ih cs).mpr ⟨u, h2⟩
        simp [leadsWith, h1, h2']

theorem takeWhile_newline (E r : List Char) (hn : '\n' ∉ E) :
    (E ++ '\n' :: r).takeWhile (fun c => !(c == '\n')) = E := by
  induction E with
  | nil => simp
  | cons a as ih =>
    have ha : (a == '\n') = false := by
      rw [beq_eq_false_iff_ne]
      intro hh
      exact hn (by rw [hh]; exact List.mem_cons_self _ _)
    have hn' : '\n' ∉ as := fun hh => hn (List.mem_cons_of_mem _ hh)
    rw [List.cons_append, List.takeWhile_cons, ha]
    simp [ih hn']

theorem takeWhile_all (E : List Char) (hn : '\n' ∉ E) :
    E.takeWhile (fun c => !(c == '\n')) = E := by
  induction E with
  | nil => rfl
  | cons a as ih =>
    have ha : (a == '\n') = false := by
      rw [beq_eq_false_iff_ne]
      intro hh
      exact hn (by rw [hh]; exact List.mem_cons_self _ _)
    have hn' : '\n' ∉ as := fun hh => hn (List.mem_cons_of_mem _ hh)
    rw [List.takeWhile_cons, ha]
    simp [ih hn']

theorem tryAt_none_of_not_leads (pat text : List Char)
    (h : leadsWith pat text = false) : tryAt pat text = none := by
  unfold tryAt
  rw [h]
  simp

theorem tryAt_capture (pat E rest : List Char) (hE : E ≠ []) (hn : '\n' ∉ E) :
    tryAt pat (pat ++ (E ++ '\n' :: rest)) = some E := by
  unfold tryAt
  rw [leadsWith_append]
  simp only [if_true]
  rw [List.drop_left]
  rw [takeWhile_newline E rest hn]
  simp [hE]

theorem tryAt_capture_end (pat E : List Char) (hE : E ≠ []) (hn : '\n' ∉ E) :
    tryAt pat (pat ++ E) = some E := by
  unfold tryAt
  rw [leadsWith_append]
  simp only [if_true]
  rw [List.drop_left]
  rw [takeWhile_all E hn]
  simp [hE]

theorem occursIn_append_of_leads (pat t s : List Char) (h : leadsWith pat s = true) :
    occursIn pat (t ++ s) = true := by
  induction t with
  | nil =>
    cases s with
    | nil => exact h
    | cons a as => simp [occursIn, h]
  | cons a as ih => simp [occursIn, ih]

theorem not_leads_of_not_occurs (pat x r : List Char)
    (hnl : '\n' ∉ pat) (hx : occursIn pat x = false) :
    ∀ s t, x = t ++ s → s ≠ [] → leadsWith pat (s ++ '\n' :: r) = false := by
  intro s t hst hs
  cases hb : leadsWith pat (s ++ '\n' :: r) with
  | false => rfl
  | true =>
    exfalso
    obtain ⟨u, hu⟩ := (leadsWith_iff pat (s ++ '\n' :: r)).mp hb
    rcases le_or_lt pat.length s.length with hle | hlt
    · have hsplit : s.take pat.length ++ (s.drop pat.length ++ '\n' :: r) = pat ++ u := by
        rw [← List.append_assoc, List.take_append_drop]
        exact hu
      have hlen : (s.take pat.length).length = pat.length := by
        rw [List.length_take]
        exact min_eq_left hle
      have hj := List.append_inj hsplit hlen
      have hlead : leadsWith pat s = true := by
        rw [leadsWith_iff]
        refine ⟨s.drop pat.length, ?_⟩
        conv_lhs => rw [← List.take_append_drop pat.length s]
        rw [hj.1]
      have hocc : occursIn pat x = true := by
        rw [hst]
        exact occursIn_append_of_leads pat t s hlead
      rw [hx] at hocc
      exact Bool.false_ne_true hocc
    · have hsplit : s ++ '\n' :: r = pat.take s.length ++ (pat.drop s.length ++ u) := by
        rw [← List.append_assoc, List.take_append_drop]
        exact hu
      have hlen : s.length = (pat.take s.length).length := by
        rw [List.length_take]
        exact (min_eq_left (le_of_lt hlt)).symm
      have hj := List.append_inj hsplit hlen
      have hrest := hj.2
      cases hd : pat.drop s.length with
      | nil =>
        have hlen2 := congrArg List.length hd
        rw [List.length_drop] at hlen2
        simp at hlen2
        omega
      | cons d ds =>
        rw [hd, List.cons_append] at hrest
        injection hrest with hdn hrr
        apply hnl
        rw [hdn]
        exact List.mem_of_mem_drop (by rw [hd]; exact List.mem_cons_self d ds)

theorem reSearch_head (pat x cap : List Char) (h : tryAt pat x = some cap) :
    reSearch pat x = some cap := by
  cases x with
  | nil => simpa [reSearch] using h
  | cons a l => simp [reSearch, h]

theorem reSearch_skip (pat rest : List Char) :
    ∀ x : List Char,
      (∀ s t, x = t ++ s → s ≠ [] → leadsWith pat (s ++ rest) = false) →
      reSearch pat (x ++ rest) = reSearch pat rest := by
  intro x
  induction x with
  | nil => intro _; rw [List.nil_append]
  | cons a as ih =>
    intro h
    have h0 : leadsWith pat ((a :: as) ++ rest) = false := h (a :: as) [] rfl (by simp)
    have ht : tryAt pat ((a :: as) ++ rest) = none := tryAt_none_of_not_leads _ _ h0
    rw [List.cons_append] at ht
    rw [List.cons_append]
    simp only [reSearch, ht]
    exact ih (fun s t hst hsne => h s (a :: t) (by rw [List.cons_append, hst]) hsne)

theorem reSearch_newline (pat l : List Char) (p0 : Char) (ps : List Char)
    (hp : pat = p0 :: ps) (h0 : (p0 == '\n') = false) :
    reSearch pat ('\n' :: l) = reSearch pat l := by
  have ht : tryAt pat ('\n' :: l) = none := by
    apply tryAt_none_of_not_leads
    rw [hp]
    simp [leadsWith, h0]
  simp only [reSearch, ht]

/-! ### Claim theorems -/

/-- C9: for every path that does not denote a directory (a nonexistent path
or a regular file alike), `archive_folder` returns the input path unchanged
and creates no archive (main.py lines 152-153). -/
theorem archive_folder_non_dir (isDir : FPath → Bool) (p : FPath)
    (h : isDir p = false) : archive_folder isDir p = (p, none) := by
  unfold archive_folder
  rw [h]
  simp

/-- Witness for C9 at the concrete non-directory path `f`. -/
theorem archive_folder_non_dir_witness :
    archive_folder (fun _ => false) ['f'] = (['f'], none) :=
  archive_folder_non_dir (fun _ => false) ['f'] rfl

/-- C5: for the directory argument `data` (no trailing separator) the
returned path and the created archive agree — `data.zip` — but for the same
directory written `data/` the code returns `data.zip` while
`shutil.make_archive` creates `data/.zip`, so the returned path is not the
created artifact's path and the subsequent size check probes a path that
was never created; the single-shot dispatch indeed hands that returned
`data.zip` (not the directory) on to the size check. -/
theorem archive_folder_trailing_sep :
    archive_folder isDirDemo dirData =
      (['d', 'a', 't', 'a', '.', 'z', 'i', 'p'],
        some ['d', 'a', 't', 'a', '.', 'z', 'i', 'p']) ∧
    (archive_folder isDirDemo dirDataSlash).1 =
      ['d', 'a', 't', 'a', '.', 'z', 'i', 'p'] ∧
    (archive_folder isDirDemo dirDataSlash).2 =
      some ['d', 'a', 't', 'a', '/', '.', 'z', 'i', 'p'] ∧
    some (archive_folder isDirDemo dirDataSlash).1 ≠
      (archive_folder isDirDemo dirDataSlash).2 ∧
    singleShotFile slashArgs slashWorld =
      (some ['d', 'a', 't', 'a', '.', 'z', 'i', 'p'],
        some ['d', 'a', 't', 'a', '/', '.', 'z', 'i', 'p']) := by
  refine ⟨rfl, rfl, rfl, ?_, rfl⟩
  decide

/-- C1 counterexample: when the form submission (`finish_form`) fails, the
run ends in `FAILED` (a raised error) and the browser-session close is
observed zero times, not exactly once — `register` has no cleanup on the
exception path. -/
theorem close_not_observed_on_failure :
    (register finishFailWorld none none false (genCredentials 0)).2 =
      .raised .finishFormFailed ∧
    (register finishFailWorld none none false (genCredentials 0)).1.countP isClose = 0 :=
  ⟨rfl, rfl⟩

/-- C1 amended: the browser-session close is observed exactly once when all
browser-phase steps succeed (control reaches line 250), and zero times when
any of them fails; failures after the close (the upload block) still see
exactly one close. -/
theorem close_observed_iff_reached (w : World) (file : Option FPath)
    (loop : Option Int) (pub : Bool) (c : Credentials) :
    (register w file loop pub c).1.countP isClose =
      if reachesClose w then 1 else 0 :=
  (register_analysis w file loop pub c).1

/-- C4 counterexample: with the mailbox still empty at poll time, the run
performs the fixed 1.5 s sleep and exactly one poll, then fails with the
poll's own error; there is no retry, no backoff, no deadline and no
`VerificationTimeout` — contradicting the claimed bounded retry-with-backoff
loop. -/
theorem single_poll_counterexample :
    register noMailWorld none none false (genCredentials 0) =
      ([.launch, .openPage, .typeName, .typePassword, .finishForm, .mailLogin,
        .sleep 1500, .poll], .raised .getMailFailed) ∧
    (register noMailWorld none none false (genCredentials 0)).1.countP isPoll = 1 ∧
    (register noMailWorld none none false (genCredentials 0)).2 ≠
      .raised .verificationTimeout := by
  refine ⟨rfl, rfl, ?_⟩
  decide

/-- C4 amended: the mailbox poll of `register` is a single fixed
1.5-second delay followed by exactly one poll — one poll happens exactly
when control reaches the mailbox phase, never more — and no run ever
produces a `VerificationTimeout` error. -/
theorem poll_single_no_timeout (w : World) (file : Option FPath)
    (loop : Option Int) (pub : Bool) (c : Credentials) :
    (register w file loop pub c).1.countP isPoll =
      (if reachesPoll w then 1 else 0) ∧
    (register w file loop pub c).2 ≠ .raised .verificationTimeout :=
  (register_analysis w file loop pub c).2

/-- C2: for an existing path of any size `s`, the upload block of `register`
realizes exactly the spec's `UploadGate.decide` table (attempt for
`0 < s < 2e10`, with a warning from `5e9` up, and the `File not found.` skip
playing the REJECT role otherwise); but for a missing path, where the spec's
table says REJECT, the code raises `FileNotFoundError` out of
`os.path.getsize` (line 262) before the `os.path.exists` test on line 263
can run, so no decision is reached at all. -/
theorem upload_gate_vs_code (p : FPath) (pub : Bool) (s : Nat) :
    classifyUpload (uploadPhase (some p) (fun q => if q == p then some s else none) pub)
      = some (gateDecide true s) ∧
    classifyUpload (uploadPhase (some p) (fun _ => none) pub) = none ∧
    gateDecide false s = .REJECT := by
  refine ⟨?_, rfl, ?_⟩
  · have hfs : (fun q : FPath => if q == p then some s else none) p = some s := by simp
    have hup : uploadPhase (some p) (fun q => if q == p then some s else none) pub =
        if 0 < s ∧ s < 20000000000 then
          (if 5000000000 ≤ s then ([.warnLargeFile, .uploadFile pub p], none)
           else ([.uploadFile pub p], none))
        else ([.printFileNotFound], none) := by
      simp only [uploadPhase, hfs]
    rw [hup]
    by_cases h1 : 0 < s ∧ s < 20000000000
    · rw [if_pos h1]
      by_cases h2 : 5000000000 ≤ s
      · rw [if_pos h2]
        have hg : gateDecide true s = .ATTEMPT_WITH_WARNING := by
          unfold gateDecide
          rw [if_neg (by push_neg; exact ⟨by simp, by omega, by omega⟩), if_pos h2]
        rw [hg]
        rfl
      · rw [if_neg h2]
        have hg : gateDecide true s = .ATTEMPT := by
          unfold gateDecide
          rw [if_neg (by push_neg; exact ⟨by simp, by omega, by omega⟩), if_neg h2]
        rw [hg]
        rfl
    · rw [if_neg h1]
      have hg : gateDecide true s = .REJECT := by
        unfold gateDecide
        rw [if_pos (Or.inr (by omega))]
      rw [hg]
      rfl
  · unfold gateDecide
    rw [if_pos (Or.inl rfl)]

/-- C6: with an existing but out-of-bounds upload path (size `2e10`), the
rejected upload is indeed downgraded to a skip (`File not found.` printed,
no upload) and the attempt still verifies the account, persists the
credentials and exits 0.  With a missing upload path, however, the
credentials are persisted but the run then dies with an uncaught
`FileNotFoundError` instead of skipping, so the overall attempt fails. -/
theorem rejected_upload_mixed_behavior :
    ((register allOkWorld (some ['g']) none false (genCredentials 0)).2 =
        .raised .fileNotFound ∧
      (register allOkWorld (some ['g']) none false (genCredentials 0)).1.countP isSave = 1 ∧
      (register allOkWorld (some ['g']) none false (genCredentials 0)).1.countP isUpload = 0 ∧
      (register allOkWorld (some ['g']) none false (genCredentials 0)).1.countP isClose = 1) ∧
    ((register bigFileWorld (some ['g']) none false (genCredentials 0)).2 = .exited 0 ∧
      (register bigFileWorld (some ['g']) none false (genCredentials 0)).1.countP isSave = 1 ∧
      (register bigFileWorld (some ['g']) none false (genCredentials 0)).1.countP isFNF = 1 ∧
      (register bigFileWorld (some ['g']) none false (genCredentials 0)).1.countP isUpload = 0) :=
  ⟨⟨rfl, rfl, rfl, rfl⟩, ⟨rfl, rfl, rfl, rfl⟩⟩

/-- C3: for every iteration count N > 1, under nominal conditions (every
external step succeeds and the optional upload does not raise),
`loop_registrations` invokes `register` exactly N times, each with a
freshly generated distinct `Credentials` value, and clears the shared `tmp`
working directory exactly N times — the batch-level event skeleton is
exactly N blocks of one `clear_tmp` immediately followed by one `register`
invocation. -/
theorem batch_iteration_discipline (w : World) (file : Option FPath) (pub : Bool)
    (n : Nat) (hn : 1 < n) (hw : reachesClose w = true)
    (hup : (uploadPhase file w.fsize pub).2 = none) :
    (loop_registrations w file pub (some (n : Int)) n).1.countP isRegisterCall = n ∧
    (loop_registrations w file pub (some (n : Int)) n).1.countP isClear = n ∧
    calledCreds (loop_registrations w file pub (some (n : Int)) n).1 =
      (List.range n).map genCredentials ∧
    (calledCreds (loop_registrations w file pub (some (n : Int)) n).1).Nodup ∧
    batchSkeleton (loop_registrations w file pub (some (n : Int)) n).1 =
      (List.range n).flatMap
        (fun i => [Event.clearTmp, Event.registerCall (genCredentials i)]) := by
  have hL : loopLE1 (some (n : Int)) = false := by
    simp only [loopLE1, decide_eq_false_iff_not]
    omega
  obtain ⟨ho, hs, hc, h1, h2⟩ := loop_nominal w file pub (some (n : Int)) hw hup hL n
  refine ⟨h2, h1, hc, ?_, hs⟩
  rw [hc]
  exact List.Nodup.map genCredentials_injective (List.nodup_range n)

/-- Witness for C3: three nominal iterations with no upload argument. -/
theorem batch_iteration_discipline_witness :
    (loop_registrations allOkWorld none false (some (3 : Int)) 3).1.countP isRegisterCall = 3 ∧
    (loop_registrations allOkWorld none false (some (3 : Int)) 3).1.countP isClear = 3 ∧
    calledCreds (loop_registrations allOkWorld none false (some (3 : Int)) 3).1 =
      (List.range 3).map genCredentials ∧
    (calledCreds (loop_registrations allOkWorld none false (some (3 : Int)) 3).1).Nodup ∧
    batchSkeleton (loop_registrations allOkWorld none false (some (3 : Int)) 3).1 =
      (List.range 3).flatMap
        (fun i => [Event.clearTmp, Event.registerCall (genCredentials i)]) :=
  batch_iteration_discipline allOkWorld none false 3 (by decide) rfl rfl

/-- C7: when `setup` cannot obtain a usable browser executable (no stored
path and the interactively entered path does not exist), the process
terminates with exit status 1 before any provisioning attempt: the trace is
empty and contains no `register` invocation. -/
theorem setup_failure_fatal (a : CliArgs) (w : World) (hc : a.convert = false)
    (h1 : setupExecPath w = []) (h2 : w.pathExists w.userInput = false) :
    mainRun a w = ([], .exited 1) ∧
    (mainRun a w).1.countP isRegisterCall = 0 := by
  have hm : mainRun a w = ([], .exited 1) := by
    unfold mainRun
    rw [if_neg (by simp [hc]), setup_fail w h1 h2]
  exact ⟨hm, by rw [hm]; rfl⟩

/-- Witness for C7: no stored config, and the prompted-for executable path
does not exist. -/
theorem setup_failure_fatal_witness :
    mainRun plainArgs noConfigWorld = ([], .exited 1) ∧
    (mainRun plainArgs noConfigWorld).1.countP isRegisterCall = 0 :=
  setup_failure_fatal plainArgs noConfigWorld rfl rfl rfl

/-- C10: two conjuncts.  Batch mode (`loop > 1`): the dispatch runs
`loop_registrations` with the upload path exactly as given on the command
line — no archive is ever created and every upload event carries the
command-line path, even for a directory-valued path.  Single-shot mode
(`loop` absent or exactly 1): the dispatch takes the single-shot path, and a
successful attempt terminates the process with exit status 0 after exactly
one `register` invocation. -/
theorem dispatch_archiving_policy :
    (∀ (a : CliArgs) (w : World) (n : Int),
       a.convert = false → a.extract = false → a.keepalive = false →
       a.loop = some n → 1 < n → setupExecPath w ≠ [] →
       mainRun a w = loop_registrations w a.file a.public (some n) n.toNat ∧
       (mainRun a w).1.countP isArchive = 0 ∧
       uploadsMatch a.file (mainRun a w).1 = true) ∧
    (∀ (a : CliArgs) (w : World),
       a.convert = false → a.extract = false → a.keepalive = false →
       (a.loop = none ∨ a.loop = some 1) → setupExecPath w ≠ [] →
       reachesClose w = true → (∀ p, (w.fsize p).isSome = true) →
       (mainRun a w).2 = .exited 0 ∧
       (mainRun a w).1.countP isRegisterCall = 1) := by
  constructor
  · intro a w n hc he hk hl hn hs
    have hm := mainRun_loop a w n hc he hk hl hn hs
    refine ⟨hm, ?_, ?_⟩
    · rw [hm]
      exact loop_countP_archive w a.file a.public (some n) n.toNat
    · rw [hm]
      exact loop_uploadsMatch w a.file a.public (some n) n.toNat
  · intro a w hc he hk hl hs hw hfs
    have hm := mainRun_single a w hc he hk hl hs
    have hL : loopLE1 a.loop = true := by
      rcases hl with hl | hl <;> simp [hl, loopLE1]
    have hup : (uploadPhase (singleShotFile a w).1 w.fsize a.public).2 = none :=
      uploadPhase_total_none _ _ _ hfs
    constructor
    · rw [hm]
      show (register w (singleShotFile a w).1 a.loop a.public (genCredentials 0)).2 = _
      rw [register_success w (singleShotFile a w).1 a.public a.loop
        (genCredentials 0) hw hup, hL]
      rfl
    · rw [hm]
      exact singleShot_calls a w

/-- Witness for C10: a three-iteration batch uploading the directory `data`
(never archived), and a `loop = 1` single shot that exits 0. -/
theorem dispatch_archiving_policy_witness :
    (mainRun dirArgs loopWorld =
        loop_registrations loopWorld (some dirData) false (some 3) (3 : Int).toNat ∧
      (mainRun dirArgs loopWorld).1.countP isArchive = 0 ∧
      uploadsMatch (some dirData) (mainRun dirArgs loopWorld).1 = true) ∧
    ((mainRun singleArgs smallFileWorld).2 = .exited 0 ∧
      (mainRun singleArgs smallFileWorld).1.countP isRegisterCall = 1) :=
  ⟨dispatch_archiving_policy.1 dirArgs loopWorld 3 rfl rfl rfl rfl (by decide)
      (by decide),
    dispatch_archiving_policy.2 singleArgs smallFileWorld rfl rfl rfl (Or.inr rfl)
      (by decide) rfl (fun _ => rfl)⟩

/-- C8: round-trip — a credential record persisted under the known template
(the three labelled lines), when parsed back by the converter's
`parse_account`, yields exactly the original email, email password and
account password, provided each field is nonempty and newline-free and no
field smuggles in one of the later labels. -/
theorem record_roundtrip (c : Credentials)
    (he : c.email ≠ []) (hen : '\n' ∉ c.email)
    (hp1 : c.emailPassword ≠ []) (hp1n : '\n' ∉ c.emailPassword)
    (hp2 : c.password ≠ []) (hp2n : '\n' ∉ c.password)
    (hx1 : occursIn emailPassPat (emailPat ++ c.email) = false)
    (hx2 : occursIn megaPassPat (emailPat ++ c.email) = false)
    (hx3 : occursIn megaPassPat (emailPassPat ++ c.emailPassword) = false) :
    parse_account (formatRecord c) =
      some { email := c.email, emailPassword := c.emailPassword,
             password := c.password } := by
  obtain ⟨nm, E, P1, P2⟩ := c
  have hR : formatRecord ⟨nm, E, P1, P2⟩ =
      emailPat ++ (E ++ '\n' :: ((emailPassPat ++ P1) ++ '\n' :: (megaPassPat ++ P2))) := by
    simp [formatRecord, List.append_assoc]
  have hR2 : formatRecord ⟨nm, E, P1, P2⟩ =
      (emailPat ++ E) ++ '\n' :: ((emailPassPat ++ P1) ++ '\n' :: (megaPassPat ++ P2)) := by
    rw [hR]
    simp [List.append_assoc]
  have h1 : reSearch emailPat (formatRecord ⟨nm, E, P1, P2⟩) = some E := by
    rw [hR]
    exact reSearch_head _ _ _ (tryAt_capture emailPat E _ he hen)
  have h2 : reSearch emailPassPat (formatRecord ⟨nm, E, P1, P2⟩) = some P1 := by
    rw [hR2]
    rw [reSearch_skip emailPassPat
      ('\n' :: ((emailPassPat ++ P1) ++ '\n' :: (megaPassPat ++ P2)))
      (emailPat ++ E)
      (not_leads_of_not_occurs emailPassPat (emailPat ++ E)
        ((emailPassPat ++ P1) ++ '\n' :: (megaPassPat ++ P2)) (by decide) hx1)]
    rw [reSearch_newline emailPassPat
      ((emailPassPat ++ P1) ++ '\n' :: (megaPassPat ++ P2)) 'E' _ rfl (by decide)]
    rw [List.append_assoc]
    exact reSearch_head _ _ _ (tryAt_capture emailPassPat P1 _ hp1 hp1n)
  have h3 : reSearch megaPassPat (formatRecord ⟨nm, E, P1, P2⟩) = some P2 := by
    rw [hR2]
    rw [reSearch_skip megaPassPat
      ('\n' :: ((emailPassPat ++ P1) ++ '\n' :: (megaPassPat ++ P2)))
      (emailPat ++ E)
      (not_leads_of_not_occurs megaPassPat (emailPat ++ E)
        ((emailPassPat ++ P1) ++ '\n' :: (megaPassPat ++ P2)) (by decide) hx2)]
    rw [reSearch_newline megaPassPat
      ((emailPassPat ++ P1) ++ '\n' :: (megaPassPat ++ P2)) 'M' _ rfl (by decide)]
    rw [reSearch_skip megaPassPat ('\n' :: (megaPassPat ++ P2)) (emailPassPat ++ P1)
      (not_leads_of_not_occurs megaPassPat (emailPassPat ++ P1) (megaPassPat ++ P2)
        (by decide) hx3)]
    rw [reSearch_newline megaPassPat (megaPassPat ++ P2) 'M' _ rfl (by decide)]
    exact reSearch_head _ _ _ (tryAt_capture_end megaPassPat P2 hp2 hp2n)
  unfold parse_account
  rw [h1, h2, h3]

/-- Witness for C8 at a concrete credentials record. -/
theorem record_roundtrip_witness :
    parse_account (formatRecord demoCreds) =
      some { email := demoCreds.email, emailPassword := demoCreds.emailPassword,
             password := demoCreds.password } :=
  record_roundtrip demoCreds (by decide) (by decide) (by decide) (by decide)
    (by decide) (by decide) (by decide) (by decide) (by decide)

end Mega
